import Mathlib

/-!
# Temporal plugin provider (`plugins/temporal/temporal.go`)

A shallow embedding of the `Provider` type of the Temporal plugin and of its
lifecycle methods `Init`, `GetConfig`, `Configure`, `Serve`, `Stop`,
`GetClient` and `CreateWorker`.

* Go interface values (`config.Provider`, `client.Client`, `error`) may be nil and
  are embedded as `Option`.
* A method call on a nil interface value is a runtime fault, so every method
  returns `Except Fault _`.
* The SDK functions the provider calls (`client.NewClient`, `Client.Close`,
  `worker.New`) are not part of the repository; they are parameters (`Deps`).
  Every call to them that returns is appended to a call log kept in the
  machine state.
* `worker.New` needs a valid connection handle: handed a nil client it panics,
  so `CreateWorker` faults on a provider whose handle is nil.
-/

namespace Temporal

/-- Runtime faults of the Go program: a method call through a nil interface
value, a send that blocks forever on a full channel, and the panic of
`worker.New` when the client it is handed is not a connection handle. -/
inductive Fault where
  | nilDereference
  | blockedSend
  | invalidClient
  deriving DecidableEq, Repr

/-- The carrier types of the SDK values the provider only stores and forwards.
`World` is the state of everything outside the process (network, server);
`Error` is Go's `error`; `Client` is `client.Client`; `Worker` is
`worker.Worker`; `Options` is `worker.Options`; `Activities` is
`roadrunner.Config`; `DataConverter` is the payload codec. -/
structure Sig where
  World : Type
  Error : Type
  Client : Type
  Worker : Type
  Options : Type
  Activities : Type
  DataConverter : Type

/-- The constant `temporalSection`. -/
def temporalSection : String := "temporal"

/-- The struct `Config`; `Activities` is a pointer, hence optional. -/
structure Config (σ : Sig) where
  Address : String
  Namespace : String
  Activities : Option σ.Activities

/-- The interface `config.Provider`, as the record of the one method the plugin
calls. `UnmarshalKey name out` receives the current contents of the target
`out` points to and returns the contents it leaves there with its error. -/
structure ConfigProvider (σ : Sig) where
  UnmarshalKey : String → Config σ → Config σ × Option σ.Error

/-- The struct `client.Options`, restricted to the fields `Serve` sets. -/
structure ClientOptions (σ : Sig) where
  HostPort : String
  Namespace : String
  DataConverter : σ.DataConverter

/-- The struct `Provider`. -/
structure Provider (σ : Sig) where
  configProvider : Option (ConfigProvider σ)
  config : Config σ
  serviceClient : Option σ.Client

/-- One call from the provider into code outside of it. -/
inductive Call (σ : Sig) where
  | UnmarshalKey (key : String)
  | NewRRDataConverter
  | NewClient (o : ClientOptions σ)
  | Close (c : σ.Client)
  | WorkerNew (c : Option σ.Client) (tq : String) (o : σ.Options)

/-- Modelled from the spec: the dependencies consumed by the provider, whose
code is outside the repository sources. `NewClient` is the connection
dependency, "a factory capability taking address, namespace and codec and
returning a connection handle or an error" (Go: `(client.Client, error)`, the
handle being nil whenever the error is not); `Close` is the handle's `Close()`
method; `WorkerNew` is the worker-construction dependency, "a factory
capability taking connection handle, task queue and options and returning a
worker object", defined on connection handles only; `NewRRDataConverter` is
the fixed payload codec. -/
structure Deps (σ : Sig) where
  NewClient : ClientOptions σ → σ.World → Except σ.Error σ.Client × σ.World
  NewRRDataConverter : σ.DataConverter
  Close : σ.Client → σ.World → σ.World
  WorkerNew : σ.Client → String → σ.Options → σ.Worker

/-- The Go pair `(value, error)` carried by a result of the factory. -/
def goResult {ε α : Type} (r : Except ε α) : Option α × Option ε :=
  match r with
  | .ok a => (some a, none)
  | .error e => (none, some e)

/-- A buffered Go channel: capacity and queued values, oldest first. -/
structure Chan (ε : Type) where
  cap : Nat
  buf : List ε

/-- The Go builtin `make(chan T, cap)`. -/
def Chan.make {ε : Type} (cap : Nat) : Chan ε :=
  { cap := cap, buf := [] }

/-- The statement `ch <- v` with no receiver: queues `v` when the buffer has
room, blocks (`none`) otherwise. -/
def Chan.send {ε : Type} (ch : Chan ε) (v : ε) : Option (Chan ε) :=
  if ch.buf.length < ch.cap then some { ch with buf := ch.buf ++ [v] } else none

/-- The machine state: the provider's fields, the outside world, and the log of
calls made into the dependencies so far. -/
structure State (σ : Sig) where
  provider : Provider σ
  world : σ.World
  calls : List (Call σ)

/-- The zero value of `Config`. -/
def Config.zero (σ : Sig) : Config σ :=
  { Address := "", Namespace := "", Activities := none }

/-- The zero value `Provider{}`. -/
def Provider.zero (σ : Sig) : Provider σ :=
  { configProvider := none, config := Config.zero σ, serviceClient := none }

/-- A fresh provider in world `w`, before any call. -/
def State.fresh {σ : Sig} (w : σ.World) : State σ :=
  { provider := Provider.zero σ, world := w, calls := [] }

/-- The method `Provider.Init`. -/
def Provider.Init {σ : Sig} (provider : Option (ConfigProvider σ)) (s : State σ) :
    Except Fault (Option σ.Error × State σ) :=
  .ok (none, { s with provider := { s.provider with configProvider := provider } })

/-- The method `Provider.GetConfig`. -/
def Provider.GetConfig {σ : Sig} (s : State σ) : Config σ :=
  s.provider.config

/-- The method `Provider.Configure`: the decoder is handed a pointer to the
`config` field, so whatever it leaves there is stored. -/
def Provider.Configure {σ : Sig} (s : State σ) :
    Except Fault (Option σ.Error × State σ) :=
  match s.provider.configProvider with
  | none => .error .nilDereference
  | some cp =>
    let r := cp.UnmarshalKey temporalSection s.provider.config
    .ok (r.2, { s with provider := { s.provider with config := r.1 },
                       calls := s.calls ++ [.UnmarshalKey temporalSection] })

/-- The options `Serve` passes to the connection factory. -/
def Provider.clientOptions {σ : Sig} (d : Deps σ) (p : Provider σ) : ClientOptions σ :=
  { HostPort := p.config.Address, Namespace := p.config.Namespace,
    DataConverter := d.NewRRDataConverter }

/-- The method `Provider.Serve`. -/
def Provider.Serve {σ : Sig} (d : Deps σ) (s : State σ) :
    Except Fault (Chan σ.Error × State σ) :=
  let errCh : Chan σ.Error := Chan.make 1
  let opts := Provider.clientOptions d s.provider
  let r := d.NewClient opts s.world
  let res := goResult r.1
  let s1 : State σ :=
    { provider := { s.provider with serviceClient := res.1 },
      world := r.2,
      calls := s.calls ++ [.NewRRDataConverter, .NewClient opts] }
  match res.2 with
  | none => .ok (errCh, s1)
  | some err =>
    match errCh.send err with
    | some ch => .ok (ch, s1)
    | none => .error .blockedSend

/-- The method `Provider.Stop`. -/
def Provider.Stop {σ : Sig} (d : Deps σ) (s : State σ) :
    Except Fault (Option σ.Error × State σ) :=
  match s.provider.serviceClient with
  | none => .error .nilDereference
  | some c => .ok (none, { s with world := d.Close c s.world, calls := s.calls ++ [.Close c] })

/-- The method `Provider.GetClient`. -/
def Provider.GetClient {σ : Sig} (s : State σ) :
    Except Fault ((Option σ.Client × Option σ.Error) × State σ) :=
  .ok ((s.provider.serviceClient, none), s)

/-- Modelled from the spec: the SDK function `worker.New`, which is outside the
repository sources. The worker-construction dependency "requires a valid
connection handle": on a handle it returns the worker the dependency builds,
on a nil client it panics. -/
def workerNew {σ : Sig} (d : Deps σ) (client : Option σ.Client) (tq : String)
    (options : σ.Options) : Except Fault σ.Worker :=
  match client with
  | none => .error .invalidClient
  | some c => .ok (d.WorkerNew c tq options)

/-- The method `Provider.CreateWorker`: the stored handle is passed to
`worker.New` as it is, without a check, and the error returned is always nil. -/
def Provider.CreateWorker {σ : Sig} (d : Deps σ) (tq : String) (options : σ.Options)
    (s : State σ) : Except Fault ((σ.Worker × Option σ.Error) × State σ) :=
  match workerNew d s.provider.serviceClient tq options with
  | .error f => .error f
  | .ok w =>
    .ok ((w, none),
         { s with calls := s.calls ++ [.WorkerNew s.provider.serviceClient tq options] })

/-- Whether a logged call is a call of the connection factory. -/
def Call.isNewClient {σ : Sig} : Call σ → Bool
  | .NewClient _ => true
  | _ => false

/-- Whether a logged call is a call of a handle's `Close()`. -/
def Call.isClose {σ : Sig} : Call σ → Bool
  | .Close _ => true
  | _ => false

/-- Number of connection-factory calls in a call log. -/
def factoryCalls {σ : Sig} (cs : List (Call σ)) : Nat :=
  cs.countP Call.isNewClient

/-- Number of `Close()` calls in a call log. -/
def closeCalls {σ : Sig} (cs : List (Call σ)) : Nat :=
  cs.countP Call.isClose

/-- One call of a lifecycle method by the host. -/
inductive Op (σ : Sig) where
  | Init (provider : Option (ConfigProvider σ))
  | Configure
  | Serve
  | Stop
  | GetClient
  | CreateWorker (tq : String) (options : σ.Options)

/-- Whether an operation is a `Serve` call. -/
def Op.isServe {σ : Sig} : Op σ → Bool
  | .Serve => true
  | _ => false

/-- The state after one method call, its return value dropped; a fault aborts. -/
def step {σ : Sig} (d : Deps σ) (op : Op σ) (s : State σ) : Except Fault (State σ) :=
  match op with
  | .Init cp => (Provider.Init cp s).map Prod.snd
  | .Configure => (Provider.Configure s).map Prod.snd
  | .Serve => (Provider.Serve d s).map Prod.snd
  | .Stop => (Provider.Stop d s).map Prod.snd
  | .GetClient => (Provider.GetClient s).map Prod.snd
  | .CreateWorker tq o => (Provider.CreateWorker d tq o s).map Prod.snd

/-- The state after a sequence of method calls, left to right. -/
def run {σ : Sig} (d : Deps σ) : List (Op σ) → State σ → Except Fault (State σ)
  | [], s => .ok s
  | op :: ops, s =>
    match step d op s with
    | .ok s1 => run d ops s1
    | .error f => .error f

/-- A sequence of `CreateWorker` calls, collecting what each one returns. -/
def createWorkers {σ : Sig} (d : Deps σ) :
    List (String × σ.Options) → State σ →
      Except Fault (List (σ.Worker × Option σ.Error) × State σ)
  | [], s => .ok ([], s)
  | (tq, o) :: rest, s =>
    match Provider.CreateWorker d tq o s with
    | .error f => .error f
    | .ok (r, s1) =>
      match createWorkers d rest s1 with
      | .error f => .error f
      | .ok (rs, s2) => .ok (r :: rs, s2)

/-! ## A concrete instance, used to evaluate the methods -/

/-- Concrete carriers: the world counts the connections opened so far, a
client is its connection number, a worker records what it was built from. -/
@[reducible] def sig0 : Sig :=
  { World := Nat, Error := String, Client := Nat,
    Worker := Option Nat × String × Nat, Options := Nat,
    Activities := Nat, DataConverter := Unit }

/-- Concrete dependencies: only `localhost:7233` accepts connections. -/
def deps0 : Deps sig0 :=
  { NewClient := fun o w =>
      if o.HostPort = "localhost:7233" then (.ok (w + 1), w + 1)
      else (.error "connection refused", w)
    NewRRDataConverter := ()
    Close := fun _ w => w
    WorkerNew := fun c tq o => (some c, tq, o) }

/-- A configuration source whose `temporal` section names a reachable server. -/
def cpGood : ConfigProvider sig0 :=
  { UnmarshalKey := fun _ _ =>
      ({ Address := "localhost:7233", Namespace := "default", Activities := none }, none) }

/-- A configuration source whose `temporal` section names a port nobody
listens on. -/
def cpUnreachable : ConfigProvider sig0 :=
  { UnmarshalKey := fun _ _ =>
      ({ Address := "localhost:9999", Namespace := "default", Activities := none }, none) }

/-- A configuration source whose decoder fills in the address, then fails on
the next field. -/
def cpBroken : ConfigProvider sig0 :=
  { UnmarshalKey := fun _ cfg =>
      ({ cfg with Address := "localhost:7233" }, some "namespace: expected string") }

/-- A fresh provider bound to `cpGood` by `Init`. -/
def stInit : State sig0 :=
  { provider := { Provider.zero sig0 with configProvider := some cpGood }, world := 0, calls := [] }

/-- The configuration `cpGood` decodes to. -/
def cfgGood : Config sig0 :=
  { Address := "localhost:7233", Namespace := "default", Activities := none }

/-- The state `Configure` leaves from `stInit`. -/
def stConfigured : State sig0 :=
  { provider := { configProvider := some cpGood, config := cfgGood, serviceClient := none },
    world := 0, calls := [.UnmarshalKey "temporal"] }

/-- The state a successful `Serve` leaves from `stConfigured`. -/
def stServing : State sig0 :=
  { provider := { configProvider := some cpGood, config := cfgGood, serviceClient := some 1 },
    world := 1,
    calls := [.UnmarshalKey "temporal", .NewRRDataConverter,
              .NewClient { HostPort := "localhost:7233", Namespace := "default", DataConverter := () }] }

/-- A provider configured with an unreachable address. -/
def stUnreachable : State sig0 :=
  { provider := { configProvider := some cpUnreachable,
                  config := { Address := "localhost:9999", Namespace := "default", Activities := none },
                  serviceClient := none },
    world := 0, calls := [] }

/-- A provider that still holds handle `7` and is configured with an
unreachable address. -/
def stStale : State sig0 :=
  { stUnreachable with provider := { stUnreachable.provider with serviceClient := some 7 } }

/-- The state a failed `Serve` leaves from `stUnreachable`. -/
def stFailed : State sig0 :=
  { stUnreachable with
    calls := [.NewRRDataConverter,
              .NewClient { HostPort := "localhost:9999", Namespace := "default",
                           DataConverter := () }] }

/-- The state one `Stop` leaves from `stServing`. -/
def stStopped : State sig0 :=
  { stServing with calls := stServing.calls ++ [.Close 1] }

/-- The state a second `Stop` leaves from `stStopped`. -/
def stStoppedTwice : State sig0 :=
  { stServing with calls := stServing.calls ++ [.Close 1, .Close 1] }

/-- A fresh provider bound to `cpBroken` by `Init`. -/
def stBroken : State sig0 :=
  { provider := { Provider.zero sig0 with configProvider := some cpBroken }, world := 0, calls := [] }

/-! ## Basic facts about the methods -/

theorem goResult_ok {ε α : Type} (a : α) :
    goResult (.ok a : Except ε α) = (some a, none) := rfl

theorem goResult_error {ε α : Type} (e : ε) :
    goResult (.error e : Except ε α) = (none, some e) := rfl

theorem Configure_bound {σ : Sig} (s : State σ) (cp : ConfigProvider σ)
    (hcp : s.provider.configProvider = some cp) :
    Provider.Configure s =
      .ok ((cp.UnmarshalKey temporalSection s.provider.config).2,
           { s with
             provider :=
               { s.provider with
                 config := (cp.UnmarshalKey temporalSection s.provider.config).1 },
             calls := s.calls ++ [.UnmarshalKey temporalSection] }) := by
  simp only [Provider.Configure, hcp]

theorem Serve_ok {σ : Sig} (d : Deps σ) (s : State σ) (c : σ.Client) (w1 : σ.World)
    (h : d.NewClient (Provider.clientOptions d s.provider) s.world = (.ok c, w1)) :
    Provider.Serve d s =
      .ok (Chan.make 1,
           { provider := { s.provider with serviceClient := some c },
             world := w1,
             calls := s.calls ++
               [.NewRRDataConverter, .NewClient (Provider.clientOptions d s.provider)] }) := by
  simp only [Provider.Serve, h, goResult_ok]

theorem Serve_error {σ : Sig} (d : Deps σ) (s : State σ) (e : σ.Error) (w1 : σ.World)
    (h : d.NewClient (Provider.clientOptions d s.provider) s.world = (.error e, w1)) :
    Provider.Serve d s =
      .ok ({ cap := 1, buf := [e] },
           { provider := { s.provider with serviceClient := none },
             world := w1,
             calls := s.calls ++
               [.NewRRDataConverter, .NewClient (Provider.clientOptions d s.provider)] }) := by
  simp [Provider.Serve, h, goResult_error, Chan.send, Chan.make]

theorem Stop_connected {σ : Sig} (d : Deps σ) (s : State σ) (c : σ.Client)
    (h : s.provider.serviceClient = some c) :
    Provider.Stop d s =
      .ok (none, { s with world := d.Close c s.world, calls := s.calls ++ [.Close c] }) := by
  simp only [Provider.Stop, h]

/-- C1. With a configuration source bound (by `Init`) whose `temporal`
section decodes to `cfg`, and a connection factory that succeeds with handle
`c` on `HostPort = cfg.Address`, `Namespace = cfg.Namespace` and the fixed
codec: `Configure` returns no error and stores `cfg`, the following `Serve`
returns a capacity-one channel holding no error, and the following `GetClient`
returns exactly `c` with a nil error. -/
theorem configure_serve_getClient {σ : Sig} (d : Deps σ) (s : State σ)
    (cp : ConfigProvider σ) (cfg : Config σ) (c : σ.Client) (w1 : σ.World)
    (hcp : s.provider.configProvider = some cp)
    (hdec : cp.UnmarshalKey temporalSection s.provider.config = (cfg, none))
    (hnew : d.NewClient { HostPort := cfg.Address, Namespace := cfg.Namespace,
                          DataConverter := d.NewRRDataConverter } s.world = (.ok c, w1)) :
    ∃ s1 ch s2,
      Provider.Configure s = .ok (none, s1) ∧
      Provider.GetConfig s1 = cfg ∧
      Provider.Serve d s1 = .ok (ch, s2) ∧
      ch.cap = 1 ∧ ch.buf = [] ∧
      Provider.GetClient s2 = .ok ((some c, none), s2) := by
  have h1 := Configure_bound s cp hcp
  rw [hdec] at h1
  refine ⟨_, Chan.make 1, _, h1, rfl, Serve_ok d _ c w1 hnew, rfl, rfl, rfl⟩

/-- Witness for C1: a fresh provider bound by `Init` to a source naming
`localhost:7233`, against dependencies that accept that address. -/
theorem configure_serve_getClient_witness :
    Provider.Init (some cpGood) (State.fresh (0 : Nat)) = .ok (none, stInit) ∧
    stInit.provider.configProvider = some cpGood ∧
    cpGood.UnmarshalKey temporalSection stInit.provider.config = (cfgGood, none) ∧
    deps0.NewClient { HostPort := cfgGood.Address, Namespace := cfgGood.Namespace,
                      DataConverter := deps0.NewRRDataConverter } stInit.world
      = (.ok (1 : Nat), (1 : Nat)) ∧
    ∃ s1 ch s2,
      Provider.Configure stInit = .ok (none, s1) ∧
      Provider.GetConfig s1 = cfgGood ∧
      Provider.Serve deps0 s1 = .ok (ch, s2) ∧
      ch.cap = 1 ∧ ch.buf = [] ∧
      Provider.GetClient s2 = .ok ((some (1 : Nat), none), s2) :=
  ⟨rfl, rfl, rfl, rfl, configure_serve_getClient deps0 stInit cpGood cfgGood 1 1 rfl rfl rfl⟩

theorem Serve_total {σ : Sig} (d : Deps σ) (s : State σ) :
    (∃ c w1, d.NewClient (Provider.clientOptions d s.provider) s.world = (.ok c, w1)) ∨
    (∃ e w1, d.NewClient (Provider.clientOptions d s.provider) s.world = (.error e, w1)) := by
  rcases h : d.NewClient (Provider.clientOptions d s.provider) s.world with ⟨r, w1⟩
  cases r with
  | ok c => exact Or.inl ⟨c, w1, rfl⟩
  | error e => exact Or.inr ⟨e, w1, rfl⟩

/-- A `Serve` whose channel holds no error is one whose factory call succeeded. -/
theorem Serve_resolved {σ : Sig} (d : Deps σ) (s0 s : State σ) (ch : Chan σ.Error)
    (h : Provider.Serve d s0 = .ok (ch, s)) (hch : ch.buf = []) :
    ∃ c w1, d.NewClient (Provider.clientOptions d s0.provider) s0.world = (.ok c, w1) ∧
      s = { provider := { s0.provider with serviceClient := some c },
            world := w1,
            calls := s0.calls ++
              [.NewRRDataConverter, .NewClient (Provider.clientOptions d s0.provider)] } := by
  rcases Serve_total d s0 with ⟨c, w1, hn⟩ | ⟨e, w1, hn⟩
  · rw [Serve_ok d s0 c w1 hn] at h
    injection h with h
    injection h with _ h2
    exact ⟨c, w1, hn, h2.symm⟩
  · rw [Serve_error d s0 e w1 hn] at h
    injection h with h
    injection h with h1 _
    rw [← h1] at hch
    simp at hch

/-- C4. When the connection factory fails with error `e`, one `Serve` call
returns (it neither faults nor blocks), calls the factory exactly once, returns
a channel of capacity one holding exactly the value `e`, and leaves the
connection handle nil whatever it was before. -/
theorem serve_failure_surfaces_once {σ : Sig} (d : Deps σ) (s : State σ) (e : σ.Error)
    (w1 : σ.World)
    (h : d.NewClient (Provider.clientOptions d s.provider) s.world = (.error e, w1)) :
    ∃ ch s1,
      Provider.Serve d s = .ok (ch, s1) ∧
      ch.cap = 1 ∧ ch.buf = [e] ∧
      s1.provider.serviceClient = none ∧
      s1.calls = s.calls ++
        [.NewRRDataConverter, .NewClient (Provider.clientOptions d s.provider)] ∧
      factoryCalls s1.calls = factoryCalls s.calls + 1 := by
  refine ⟨_, _, Serve_error d s e w1 h, rfl, rfl, rfl, rfl, ?_⟩
  simp [factoryCalls, List.countP_append, List.countP_cons, Call.isNewClient]

/-- Witness for C4: a provider holding the stale handle `7`, configured with
an address nobody listens on. -/
theorem serve_failure_surfaces_once_witness :
    stStale.provider.serviceClient = some 7 ∧
    deps0.NewClient (Provider.clientOptions deps0 stStale.provider) stStale.world
      = (.error "connection refused", (0 : Nat)) ∧
    ∃ ch s1,
      Provider.Serve deps0 stStale = .ok (ch, s1) ∧
      ch.cap = 1 ∧ ch.buf = ["connection refused"] ∧
      s1.provider.serviceClient = none ∧
      s1.calls = stStale.calls ++
        [.NewRRDataConverter, .NewClient (Provider.clientOptions deps0 stStale.provider)] ∧
      factoryCalls s1.calls = factoryCalls stStale.calls + 1 :=
  ⟨rfl, rfl, serve_failure_surfaces_once deps0 stStale "connection refused" 0 rfl⟩

/-- C2, as stated, fails: on a fresh provider (no `Serve` yet) `GetClient` does
not return an error, and after a successful `Serve` followed by `Stop` it
returns the handle `1` with a nil error. -/
theorem getClient_notConnected_counterexample :
    (¬ ∃ h e s1, Provider.GetClient (State.fresh (0 : Nat) : State sig0) = .ok ((h, some e), s1)) ∧
    Provider.GetClient (State.fresh (0 : Nat) : State sig0)
      = .ok ((none, none), State.fresh (0 : Nat)) ∧
    Provider.Stop deps0 stServing = .ok (none, stStopped) ∧
    Provider.GetClient stStopped = .ok ((some (1 : Nat), none), stStopped) := by
  refine ⟨?_, rfl, rfl, rfl⟩
  rintro ⟨h, e, s1, heq⟩
  simp [Provider.GetClient] at heq

/-- C2, amended. `GetClient` never fails: in every state it returns a nil
error, the stored handle, and leaves the state as it is. The stored handle is
nil on a fresh provider and after a failed `Serve`; after a `Stop` that
returned it is still the non-nil handle held before the `Stop`. -/
theorem getClient_returns_stored_handle {σ : Sig} (d : Deps σ) (s : State σ) :
    Provider.GetClient s = .ok ((s.provider.serviceClient, none), s) ∧
    (∀ w, Provider.GetClient (State.fresh w : State σ) = .ok ((none, none), State.fresh w)) ∧
    (∀ ch s1, Provider.Serve d s = .ok (ch, s1) → ch.buf ≠ [] →
      Provider.GetClient s1 = .ok ((none, none), s1)) ∧
    (∀ r s1, Provider.Stop d s = .ok (r, s1) →
      ∃ c, s.provider.serviceClient = some c ∧
        Provider.GetClient s1 = .ok ((some c, none), s1)) := by
  refine ⟨rfl, fun _ => rfl, ?_, ?_⟩
  · intro ch s1 h hch
    rcases Serve_total d s with ⟨c, w1, hn⟩ | ⟨e, w1, hn⟩
    · rw [Serve_ok d s c w1 hn] at h
      injection h with h
      injection h with h1 _
      exact absurd (by rw [← h1]; rfl) hch
    · rw [Serve_error d s e w1 hn] at h
      injection h with h
      injection h with _ h2
      rw [← h2]
      rfl
  · intro r s1 h
    cases hc : s.provider.serviceClient with
    | none => simp [Provider.Stop, hc] at h
    | some c =>
      rw [Stop_connected d s c hc] at h
      injection h with h
      injection h with _ h2
      refine ⟨c, rfl, ?_⟩
      rw [← h2]
      simp only [Provider.GetClient, hc]

/-- Witness for C2, amended: a failed `Serve` from `stUnreachable` and a
`Stop` from `stServing`. -/
theorem getClient_returns_stored_handle_witness :
    Provider.Serve deps0 stUnreachable = .ok ({ cap := 1, buf := ["connection refused"] }, stFailed) ∧
    Provider.GetClient stFailed = .ok ((none, none), stFailed) ∧
    Provider.Stop deps0 stServing = .ok (none, stStopped) ∧
    (∃ c, stServing.provider.serviceClient = some c ∧
      Provider.GetClient stStopped = .ok ((some c, none), stStopped)) :=
  ⟨rfl,
   (getClient_returns_stored_handle deps0 stUnreachable).2.2.1 _ stFailed rfl (by simp),
   rfl,
   (getClient_returns_stored_handle deps0 stServing).2.2.2 none stStopped rfl⟩

theorem CreateWorker_eq {σ : Sig} (d : Deps σ) (tq : String) (o : σ.Options) (s : State σ)
    (c : σ.Client) (hc : s.provider.serviceClient = some c) :
    Provider.CreateWorker d tq o s =
      .ok ((d.WorkerNew c tq o, none),
           { s with calls := s.calls ++ [.WorkerNew (some c) tq o] }) := by
  simp only [Provider.CreateWorker, workerNew, hc]

theorem CreateWorker_nil {σ : Sig} (d : Deps σ) (tq : String) (o : σ.Options) (s : State σ)
    (hc : s.provider.serviceClient = none) :
    Provider.CreateWorker d tq o s = .error Fault.invalidClient := by
  simp only [Provider.CreateWorker, workerNew, hc]

theorem CreateWorker_no_error {σ : Sig} (d : Deps σ) (tq : String) (o : σ.Options)
    (s : State σ) :
    ¬ ∃ w e s1, Provider.CreateWorker d tq o s = .ok ((w, some e), s1) := by
  rintro ⟨w, e, s1, h⟩
  cases hc : s.provider.serviceClient with
  | none => rw [CreateWorker_nil d tq o s hc] at h; simp at h
  | some c => rw [CreateWorker_eq d tq o s c hc] at h; simp at h

/-- C3, as stated, fails: on a serving provider `CreateWorker` with the empty
task-queue name returns no error and does return a worker. -/
theorem createWorker_empty_queue_counterexample :
    Provider.Serve deps0 stConfigured = .ok (Chan.make 1, stServing) ∧
    (¬ ∃ w e s1, Provider.CreateWorker deps0 "" (0 : Nat) stServing = .ok ((w, some e), s1)) ∧
    (∃ s1, Provider.CreateWorker deps0 "" (0 : Nat) stServing
      = .ok (((some (1 : Nat), "", (0 : Nat)), none), s1)) :=
  ⟨rfl, CreateWorker_no_error deps0 "" 0 stServing, ⟨_, rfl⟩⟩

/-- C3, amended. In every provider state that holds a connection handle and
for every options value, `CreateWorker` called with the empty task-queue name
returns a nil error and the worker the construction dependency builds from the
stored handle, the empty name and the options, leaving the provider's fields
and the outside world unchanged; the empty name is not validated. -/
theorem createWorker_empty_queue_not_validated {σ : Sig} (d : Deps σ) (o : σ.Options)
    (s : State σ) (c : σ.Client) (hc : s.provider.serviceClient = some c) :
    ∃ s1, Provider.CreateWorker d "" o s = .ok ((d.WorkerNew c "" o, none), s1) ∧
      s1.provider = s.provider ∧ s1.world = s.world :=
  ⟨_, CreateWorker_eq d "" o s c hc, rfl, rfl⟩

/-- Witness for C3, amended: the serving state, which holds the handle `1`. -/
theorem createWorker_empty_queue_not_validated_witness :
    stServing.provider.serviceClient = some (1 : Nat) ∧
    ∃ s1, Provider.CreateWorker deps0 "" (0 : Nat) stServing
        = .ok ((deps0.WorkerNew (1 : Nat) "" (0 : Nat), none), s1) ∧
      s1.provider = stServing.provider ∧ s1.world = stServing.world :=
  ⟨rfl, createWorker_empty_queue_not_validated deps0 0 stServing 1 rfl⟩

/-- C5. The code at the failing inputs: `Stop` on a provider with no
connection handle (a fresh one, and one whose `Serve` failed) faults on the
nil handle instead of returning a nil error. -/
theorem stop_without_handle_faults :
    Provider.Stop deps0 (State.fresh (0 : Nat)) = .error Fault.nilDereference ∧
    Provider.Serve deps0 stUnreachable
      = .ok ({ cap := 1, buf := ["connection refused"] }, stFailed) ∧
    Provider.Stop deps0 stFailed = .error Fault.nilDereference :=
  ⟨rfl, rfl, rfl⟩

/-- C6, as stated, fails: after a successful `Serve`, the second `Stop`
invokes the close operation of the connection a second time. -/
theorem stop_twice_closes_twice_counterexample :
    Provider.Serve deps0 stConfigured = .ok (Chan.make 1, stServing) ∧
    Provider.Stop deps0 stServing = .ok (none, stStopped) ∧
    Provider.Stop deps0 stStopped = .ok (none, stStoppedTwice) ∧
    closeCalls stStopped.calls = 1 ∧
    closeCalls stStoppedTwice.calls = 2 ∧
    stStoppedTwice.calls = stStopped.calls ++ [Call.Close (1 : Nat)] := by
  refine ⟨rfl, rfl, rfl, ?_, ?_, rfl⟩
  · simp [closeCalls, stStopped, stServing, Call.isClose, List.countP_cons]
  · simp [closeCalls, stStoppedTwice, stServing, Call.isClose, List.countP_cons]

/-- C6, amended. From every state reached by a successful `Serve`, `Stop`
followed by `Stop` both return a nil error, the provider's fields after two
`Stop`s equal those after one, and each of the two calls invokes the close
operation of the stored handle exactly once. -/
theorem stop_twice_succeeds {σ : Sig} (d : Deps σ) (s0 s : State σ) (ch : Chan σ.Error)
    (hserve : Provider.Serve d s0 = .ok (ch, s)) (hch : ch.buf = []) :
    ∃ c s1 s2,
      s.provider.serviceClient = some c ∧
      Provider.Stop d s = .ok (none, s1) ∧
      Provider.Stop d s1 = .ok (none, s2) ∧
      s1.provider = s.provider ∧ s2.provider = s1.provider ∧
      s1.calls = s.calls ++ [.Close c] ∧
      s2.calls = s1.calls ++ [.Close c] ∧
      closeCalls s1.calls = closeCalls s.calls + 1 ∧
      closeCalls s2.calls = closeCalls s1.calls + 1 := by
  obtain ⟨c, w1, _, hs⟩ := Serve_resolved d s0 s ch hserve hch
  have hc : s.provider.serviceClient = some c := by rw [hs]
  refine ⟨c, _, _, hc, Stop_connected d s c hc, Stop_connected d _ c hc, rfl, rfl, rfl, rfl, ?_, ?_⟩
  · simp [closeCalls, List.countP_append, List.countP_cons, Call.isClose]
  · simp [closeCalls, List.countP_append, List.countP_cons, Call.isClose]

/-- Witness for C6, amended: the serving state reached from `stConfigured`. -/
theorem stop_twice_succeeds_witness :
    Provider.Serve deps0 stConfigured = .ok (Chan.make 1, stServing) ∧
    (Chan.make 1 : Chan String).buf = [] ∧
    ∃ c s1 s2,
      stServing.provider.serviceClient = some c ∧
      Provider.Stop deps0 stServing = .ok (none, s1) ∧
      Provider.Stop deps0 s1 = .ok (none, s2) ∧
      s1.provider = stServing.provider ∧ s2.provider = s1.provider ∧
      s1.calls = stServing.calls ++ [.Close c] ∧
      s2.calls = s1.calls ++ [.Close c] ∧
      closeCalls s1.calls = closeCalls stServing.calls + 1 ∧
      closeCalls s2.calls = closeCalls s1.calls + 1 :=
  ⟨rfl, rfl, stop_twice_succeeds deps0 stConfigured stServing (Chan.make 1) rfl rfl⟩

theorem createWorkers_eq {σ : Sig} (d : Deps σ) (c : σ.Client)
    (reqs : List (String × σ.Options)) :
    ∀ s : State σ, s.provider.serviceClient = some c →
      createWorkers d reqs s =
        .ok (reqs.map (fun r => (d.WorkerNew c r.1 r.2, none)),
             { s with calls := s.calls ++
                 reqs.map (fun r => Call.WorkerNew (some c) r.1 r.2) }) := by
  induction reqs with
  | nil => intro s _; simp [createWorkers]
  | cons r rest ih =>
    intro s hc
    obtain ⟨tq, o⟩ := r
    have hc1 : (State.mk s.provider s.world
        (s.calls ++ [Call.WorkerNew (some c) tq o])).provider.serviceClient = some c := hc
    simp [createWorkers, CreateWorker_eq d tq o s c hc, ih _ hc1]

/-- C8, as stated, fails: after a successful `Serve` followed by `Stop`,
`CreateWorker` with the non-empty name `default` returns no error and returns
a worker, the one built from the stopped handle `1`. -/
theorem createWorker_notConnected_counterexample :
    Provider.Serve deps0 stConfigured = .ok (Chan.make 1, stServing) ∧
    Provider.Stop deps0 stServing = .ok (none, stStopped) ∧
    (¬ ∃ w e s1, Provider.CreateWorker deps0 "default" (0 : Nat) stStopped
      = .ok ((w, some e), s1)) ∧
    (∃ s1, Provider.CreateWorker deps0 "default" (0 : Nat) stStopped
      = .ok (((some (1 : Nat), "default", (0 : Nat)), none), s1)) :=
  ⟨rfl, rfl, CreateWorker_no_error deps0 "default" 0 stStopped, ⟨_, rfl⟩⟩

/-- C8, amended. For every non-empty task-queue name and every options value:
after a `Stop` that returned, `CreateWorker` returns a nil error and the worker
the construction dependency builds from the handle that was stopped, the name
and the options; in no provider state does `CreateWorker` return a non-nil
error, as `GetClient` never does. -/
theorem createWorker_without_connection {σ : Sig} (d : Deps σ) (tq : String)
    (o : σ.Options) (s : State σ) (htq : tq ≠ "") :
    (∀ r s1, Provider.Stop d s = .ok (r, s1) →
      ∃ c s2, s.provider.serviceClient = some c ∧
        Provider.CreateWorker d tq o s1 = .ok ((d.WorkerNew c tq o, none), s2) ∧
        s2.provider = s.provider) ∧
    (¬ ∃ w e s1, Provider.CreateWorker d tq o s = .ok ((w, some e), s1)) ∧
    (¬ ∃ h e s1, Provider.GetClient s = .ok ((h, some e), s1)) := by
  have _ := htq
  refine ⟨?_, CreateWorker_no_error d tq o s, ?_⟩
  · intro r s1 h
    cases hc : s.provider.serviceClient with
    | none => simp [Provider.Stop, hc] at h
    | some c =>
      rw [Stop_connected d s c hc] at h
      injection h with h
      injection h with _ h2
      have hc1 : s1.provider.serviceClient = some c := by rw [← h2]; exact hc
      rw [CreateWorker_eq d tq o s1 c hc1, ← h2]
      exact ⟨c, _, rfl, rfl, rfl⟩
  · rintro ⟨h, e, s1, heq⟩
    simp [Provider.GetClient] at heq

/-- Witness for C8, amended: the name `default` on a stopped provider. -/
theorem createWorker_without_connection_witness :
    ("default" : String) ≠ "" ∧
    Provider.Stop deps0 stServing = .ok (none, stStopped) ∧
    (∃ c s2, stServing.provider.serviceClient = some c ∧
      Provider.CreateWorker deps0 "default" (0 : Nat) stStopped
        = .ok ((deps0.WorkerNew c "default" (0 : Nat), none), s2) ∧
      s2.provider = stServing.provider) :=
  ⟨by decide, rfl,
   (createWorker_without_connection deps0 "default" 0 stServing (by decide)).1 none stStopped rfl⟩

/-- C9. From every state reached by a successful `Serve`, for every non-empty
task-queue name and every options value, `CreateWorker` returns a nil error and
the worker the construction dependency builds from exactly the current handle,
the name and the options, and leaves the provider's fields and the outside
world unchanged; every sequence of `CreateWorker` calls with distinct non-empty
names succeeds, each worker being built from that same handle. -/
theorem createWorker_after_serve {σ : Sig} (d : Deps σ) (s0 s : State σ) (ch : Chan σ.Error)
    (hserve : Provider.Serve d s0 = .ok (ch, s)) (hch : ch.buf = []) :
    ∃ c, s.provider.serviceClient = some c ∧
      (∀ tq o, tq ≠ "" →
        ∃ s1, Provider.CreateWorker d tq o s = .ok ((d.WorkerNew c tq o, none), s1) ∧
          s1.provider = s.provider ∧ s1.world = s.world) ∧
      (∀ reqs : List (String × σ.Options),
        (reqs.map Prod.fst).Nodup → (∀ r ∈ reqs, r.1 ≠ "") →
        ∃ s1, createWorkers d reqs s
            = .ok (reqs.map (fun r => (d.WorkerNew c r.1 r.2, none)), s1) ∧
          s1.provider = s.provider ∧ s1.world = s.world) := by
  obtain ⟨c, w1, _, hs⟩ := Serve_resolved d s0 s ch hserve hch
  have hc : s.provider.serviceClient = some c := by rw [hs]
  refine ⟨c, hc, ?_, ?_⟩
  · intro tq o _
    rw [CreateWorker_eq d tq o s c hc]
    exact ⟨_, rfl, rfl, rfl⟩
  · intro reqs _ _
    rw [createWorkers_eq d c reqs s hc]
    exact ⟨_, rfl, rfl, rfl⟩

/-- Witness for C9: the serving state reached from `stConfigured`, with the
queues `default` and `billing`. -/
theorem createWorker_after_serve_witness :
    Provider.Serve deps0 stConfigured = .ok (Chan.make 1, stServing) ∧
    (Chan.make 1 : Chan String).buf = [] ∧
    (∃ s1, createWorkers deps0 [("default", (3 : Nat)), ("billing", (4 : Nat))] stServing
        = .ok ([((some (1 : Nat), "default", (3 : Nat)), none),
                ((some (1 : Nat), "billing", (4 : Nat)), none)], s1) ∧
      s1.provider = stServing.provider) ∧
    ∃ c, stServing.provider.serviceClient = some c ∧
      (∀ tq o, tq ≠ "" →
        ∃ s1, Provider.CreateWorker deps0 tq o stServing
            = .ok ((deps0.WorkerNew c tq o, none), s1) ∧
          s1.provider = stServing.provider ∧ s1.world = stServing.world) ∧
      (∀ reqs : List (String × Nat),
        (reqs.map Prod.fst).Nodup → (∀ r ∈ reqs, r.1 ≠ "") →
        ∃ s1, createWorkers deps0 reqs stServing
            = .ok (reqs.map (fun r => (deps0.WorkerNew c r.1 r.2, none)), s1) ∧
          s1.provider = stServing.provider ∧ s1.world = stServing.world) :=
  ⟨rfl, rfl, ⟨_, rfl, rfl⟩,
   createWorker_after_serve deps0 stConfigured stServing (Chan.make 1) rfl rfl⟩

/-- C10, as stated, fails: with a decoder that fills in the address and then
fails, `Configure` returns the decoder's error and the stored configuration has
changed (its address is no longer empty). -/
theorem configure_failure_overwrites_counterexample :
    ∃ s1, Provider.Configure stBroken = .ok (some "namespace: expected string", s1) ∧
      (Provider.GetConfig stBroken).Address = "" ∧
      (Provider.GetConfig s1).Address = "localhost:7233" ∧
      Provider.GetConfig s1 ≠ Provider.GetConfig stBroken := by
  refine ⟨_, rfl, rfl, rfl, ?_⟩
  intro h
  have h2 := congrArg Config.Address h
  revert h2
  decide

/-- C10, amended. For every provider state with a configuration source bound
by `Init`, `Configure` returns exactly the decoder's error (nil exactly when the
decoder succeeds) and stores what the decoder left in the target it was
handed: on success `GetConfig` returns the decoded address, namespace and
activity configuration, and on failure the stored configuration is unchanged
whenever the decoder left its target unchanged. The connection handle, the
configuration source and the outside world are unchanged in both cases. -/
theorem configure_returns_decoder_error {σ : Sig} (s : State σ) (cp : ConfigProvider σ)
    (hcp : s.provider.configProvider = some cp) :
    ∃ s1,
      Provider.Configure s = .ok ((cp.UnmarshalKey temporalSection s.provider.config).2, s1) ∧
      Provider.GetConfig s1 = (cp.UnmarshalKey temporalSection s.provider.config).1 ∧
      ((cp.UnmarshalKey temporalSection s.provider.config).1 = s.provider.config →
        Provider.GetConfig s1 = Provider.GetConfig s) ∧
      s1.provider.serviceClient = s.provider.serviceClient ∧
      s1.provider.configProvider = s.provider.configProvider ∧
      s1.world = s.world :=
  ⟨_, Configure_bound s cp hcp, rfl, fun h => h, rfl, rfl, rfl⟩

/-- Witness for C10, amended: a fresh provider bound by `Init` to `cpGood`. -/
theorem configure_returns_decoder_error_witness :
    Provider.Init (some cpGood) (State.fresh (0 : Nat)) = .ok (none, stInit) ∧
    stInit.provider.configProvider = some cpGood ∧
    ∃ s1,
      Provider.Configure stInit
        = .ok ((cpGood.UnmarshalKey temporalSection stInit.provider.config).2, s1) ∧
      Provider.GetConfig s1 = (cpGood.UnmarshalKey temporalSection stInit.provider.config).1 ∧
      ((cpGood.UnmarshalKey temporalSection stInit.provider.config).1 = stInit.provider.config →
        Provider.GetConfig s1 = Provider.GetConfig stInit) ∧
      s1.provider.serviceClient = stInit.provider.serviceClient ∧
      s1.provider.configProvider = stInit.provider.configProvider ∧
      s1.world = stInit.world :=
  ⟨rfl, rfl, configure_returns_decoder_error stInit cpGood rfl⟩

theorem step_keeps_handle {σ : Sig} (d : Deps σ) (op : Op σ) (s s1 : State σ)
    (h : step d op s = .ok s1) (hop : op.isServe = false) :
    s1.provider.serviceClient = s.provider.serviceClient := by
  cases op with
  | Init cp =>
    simp only [step, Provider.Init, Except.map] at h
    injection h with h; rw [← h]
  | Configure =>
    cases hcp : s.provider.configProvider with
    | none => simp [step, Provider.Configure, hcp, Except.map] at h
    | some cp =>
      simp only [step, Configure_bound s cp hcp, Except.map] at h
      injection h with h; rw [← h]
  | Serve => simp [Op.isServe] at hop
  | Stop =>
    cases hc : s.provider.serviceClient with
    | none => simp [step, Provider.Stop, hc, Except.map] at h
    | some c =>
      simp only [step, Stop_connected d s c hc, Except.map] at h
      injection h with h; rw [← h]; exact hc
  | GetClient =>
    simp only [step, Provider.GetClient, Except.map] at h
    injection h with h; rw [← h]
  | CreateWorker tq o =>
    cases hc : s.provider.serviceClient with
    | none => simp [step, CreateWorker_nil d tq o s hc, Except.map] at h
    | some c =>
      simp only [step, CreateWorker_eq d tq o s c hc, Except.map] at h
      injection h with h; rw [← h]; exact hc

theorem step_Serve_handle {σ : Sig} (d : Deps σ) (s s1 : State σ)
    (h : step d .Serve s = .ok s1) :
    s1.provider.serviceClient
      = (goResult (d.NewClient (Provider.clientOptions d s.provider) s.world).1).1 := by
  rcases Serve_total d s with ⟨c, w1, hn⟩ | ⟨e, w1, hn⟩
  · simp only [step, Serve_ok d s c w1 hn, Except.map] at h
    injection h with h; rw [← h, hn]; rfl
  · simp only [step, Serve_error d s e w1 hn, Except.map] at h
    injection h with h; rw [← h, hn]; rfl

theorem run_append {σ : Sig} (d : Deps σ) (xs ys : List (Op σ)) :
    ∀ s : State σ, run d (xs ++ ys) s =
      match run d xs s with
      | .ok sm => run d ys sm
      | .error f => .error f := by
  induction xs with
  | nil => intro s; rfl
  | cons x xs ih =>
    intro s
    simp only [List.cons_append, run]
    cases step d x s with
    | ok s1 => exact ih s1
    | error f => rfl

theorem run_keeps_handle {σ : Sig} (d : Deps σ) (ops : List (Op σ)) :
    ∀ s s1 : State σ, run d ops s = .ok s1 → (∀ op ∈ ops, op.isServe = false) →
      s1.provider.serviceClient = s.provider.serviceClient := by
  induction ops with
  | nil =>
    intro s s1 h _
    simp only [run] at h
    injection h with h; rw [h]
  | cons x xs ih =>
    intro s s1 h hall
    simp only [run] at h
    cases hx : step d x s with
    | error f => rw [hx] at h; simp at h
    | ok sm =>
      rw [hx] at h
      rw [ih sm s1 h (fun op hop => hall op (List.mem_cons_of_mem _ hop)),
        step_keeps_handle d x s sm hx (hall x (List.mem_cons_self _ _))]

theorem run_last_Serve {σ : Sig} (d : Deps σ) (pre post : List (Op σ)) (s sm s1 : State σ)
    (hpre : run d pre s = .ok sm) (h : run d (pre ++ Op.Serve :: post) s = .ok s1)
    (hpost : ∀ op ∈ post, op.isServe = false) :
    s1.provider.serviceClient
      = (goResult (d.NewClient (Provider.clientOptions d sm.provider) sm.world).1).1 := by
  rw [run_append, hpre] at h
  simp only [run] at h
  cases hs : step d .Serve sm with
  | error f => rw [hs] at h; simp at h
  | ok s2 =>
    rw [hs] at h
    rw [run_keeps_handle d post s2 s1 h hpost, step_Serve_handle d sm s2 hs]

theorem handle_some_origin {σ : Sig} (d : Deps σ) (w : σ.World) (ops : List (Op σ)) :
    ∀ (s1 : State σ) (c : σ.Client), run d ops (State.fresh w) = .ok s1 →
      s1.provider.serviceClient = some c →
      ∃ pre post sm w1, ops = pre ++ Op.Serve :: post ∧
        (∀ op ∈ post, op.isServe = false) ∧
        run d pre (State.fresh w) = .ok sm ∧
        d.NewClient (Provider.clientOptions d sm.provider) sm.world = (.ok c, w1) := by
  induction ops using List.reverseRecOn with
  | nil =>
    intro s1 c h hc
    simp only [run] at h
    injection h with h
    rw [← h] at hc
    simp [State.fresh, Provider.zero] at hc
  | append_singleton xs x ih =>
    intro s1 c h hc
    rw [run_append] at h
    cases hxs : run d xs (State.fresh w) with
    | error f => rw [hxs] at h; simp at h
    | ok sm =>
      rw [hxs] at h
      simp only [run] at h
      cases hx : step d x sm with
      | error f => rw [hx] at h; simp at h
      | ok s2 =>
        rw [hx] at h
        injection h with h
        subst h
        cases hsv : x.isServe with
        | true =>
          have hxe : x = Op.Serve := by
            cases x <;> simp [Op.isServe] at hsv
            rfl
          subst hxe
          have hh := step_Serve_handle d sm s2 hx
          rw [hc] at hh
          rcases hn : d.NewClient (Provider.clientOptions d sm.provider) sm.world with ⟨r, w1⟩
          rw [hn] at hh
          cases r with
          | ok c2 =>
            simp [goResult] at hh
            subst hh
            exact ⟨xs, [], sm, w1, rfl, by simp, hxs, hn⟩
          | error e => simp [goResult] at hh
        | false =>
          have hk := step_keeps_handle d x sm s2 hx hsv
          rw [hc] at hk
          obtain ⟨pre, post, sp, w1, hops, hpost, hrun, hn⟩ := ih sm c hxs hk.symm
          refine ⟨pre, post ++ [x], sp, w1, ?_, ?_, hrun, hn⟩
          · rw [hops]; simp
          · intro op hop
            rcases List.mem_append.mp hop with h1 | h1
            · exact hpost op h1
            · rw [List.mem_singleton.mp h1]; exact hsv

/-- C7, as stated, fails: after `Init`, `Configure`, a successful `Serve` and
`Stop`, the handle is not nil; it is still the handle `1` the `Serve`
installed. -/
theorem handle_survives_stop_counterexample :
    run deps0 [.Init (some cpGood), .Configure, .Serve, .Stop] (State.fresh (0 : Nat))
      = .ok stStopped ∧
    stStopped.provider.serviceClient = some (1 : Nat) ∧
    stStopped.provider.serviceClient ≠ none := by
  refine ⟨rfl, rfl, ?_⟩
  simp [stStopped, stServing]

/-- C7, amended. Over every sequence of `Init`, `Configure`, `Serve`, `Stop`,
`GetClient` and `CreateWorker` calls run from a fresh provider: the handle is
non-nil only in states that lie after a successful `Serve`, namely it is the
handle the factory returned to the last `Serve` of the sequence; conversely
the handle is whatever the last `Serve` installed (nil when that call failed),
every later call leaving it as it is. `Stop` does not clear the handle: in the
state after a `Stop` that returned, the handle is still the non-nil handle it
was before. -/
theorem handle_written_only_by_serve {σ : Sig} (d : Deps σ) (ops : List (Op σ))
    (w : σ.World) (s1 : State σ) (hrun : run d ops (State.fresh w) = .ok s1) :
    (∀ c, s1.provider.serviceClient = some c →
      ∃ pre post sm w1, ops = pre ++ Op.Serve :: post ∧
        (∀ op ∈ post, op.isServe = false) ∧
        run d pre (State.fresh w) = .ok sm ∧
        d.NewClient (Provider.clientOptions d sm.provider) sm.world = (.ok c, w1)) ∧
    (∀ pre post sm, ops = pre ++ Op.Serve :: post → (∀ op ∈ post, op.isServe = false) →
      run d pre (State.fresh w) = .ok sm →
      s1.provider.serviceClient
        = (goResult (d.NewClient (Provider.clientOptions d sm.provider) sm.world).1).1) ∧
    ((∀ op ∈ ops, op.isServe = false) → s1.provider.serviceClient = none) ∧
    (∀ r s2, Provider.Stop d s1 = .ok (r, s2) →
      s2.provider.serviceClient = s1.provider.serviceClient ∧
      s2.provider.serviceClient ≠ none) := by
  refine ⟨fun c hc => handle_some_origin d w ops s1 c hrun hc, ?_, ?_, ?_⟩
  · intro pre post sm hops hpost hpre
    rw [hops] at hrun
    exact run_last_Serve d pre post _ sm s1 hpre hrun hpost
  · intro hall
    rw [run_keeps_handle d ops _ s1 hrun hall]
    rfl
  · intro r s2 h
    cases hc : s1.provider.serviceClient with
    | none => simp [Provider.Stop, hc] at h
    | some c =>
      rw [Stop_connected d s1 c hc] at h
      injection h with h
      injection h with _ h2
      rw [← h2]
      simp [hc]

/-- Witness for C7, amended: the sequence `Init`, `Configure`, `Serve`,
`CreateWorker`, which ends in a state from which `Stop` returns with the handle
`1` still in place. -/
theorem handle_written_only_by_serve_witness :
    run deps0 [.Init (some cpGood), .Configure, .Serve, .CreateWorker "default" (0 : Nat)]
        (State.fresh (0 : Nat))
      = .ok { stServing with
              calls := stServing.calls ++ [.WorkerNew (some (1 : Nat)) "default" (0 : Nat)] } ∧
    (∃ s2, Provider.Stop deps0
        { stServing with
          calls := stServing.calls ++ [.WorkerNew (some (1 : Nat)) "default" (0 : Nat)] }
        = .ok (none, s2) ∧ s2.provider.serviceClient = some (1 : Nat)) ∧
    (∃ pre post sm w1,
      [Op.Init (some cpGood), .Configure, .Serve, .CreateWorker "default" (0 : Nat)]
        = pre ++ Op.Serve :: post ∧
      (∀ op ∈ post, op.isServe = false) ∧
      run deps0 pre (State.fresh (0 : Nat)) = .ok sm ∧
      deps0.NewClient (Provider.clientOptions deps0 sm.provider) sm.world
        = (.ok (1 : Nat), w1)) :=
  ⟨rfl, ⟨_, rfl, rfl⟩,
   (handle_written_only_by_serve deps0
      [.Init (some cpGood), .Configure, .Serve, .CreateWorker "default" (0 : Nat)] 0 _ rfl).1
      1 rfl⟩

end Temporal
